import Mathlib

/-!
Verification of the `bpm` multi-module task runner (src/bpm/config.py,
src/bpm/cli.py, src/bpm/logger.py) against its specification.

The Python code is shallowly embedded: filesystem paths become `BPath`
(an absolute flag plus a component list), Python dicts become association
lists iterated in insertion order, `pydantic` validation becomes explicit
`Except`-returning construction functions, and process spawning / stream
reading / teardown become pure functions parameterised by the environment
(which spawns succeed, how each child reacts to termination, what each
output stream yields).
-/

namespace BPM

/-- Model of a `pathlib.Path`: whether the path is absolute, plus its
components (for an absolute path, the components after the root). -/
structure BPath where
  absolute : Bool
  comps : List String
deriving DecidableEq, Repr

/-- Model of `Path.relative_to`: it succeeds exactly when the anchors agree
and the root's components are a leading run of the subdirectory's. -/
def BPath.relativeTo (sub root : BPath) : Bool :=
  sub.absolute == root.absolute && root.comps.isPrefixOf sub.comps

/-- Embedding of `rebase_path` (config.py): if `subdir` is already relative
to `new_root` it is returned as-is; otherwise its leading slash (if any) is
stripped and it is joined under `new_root`. -/
def rebase_path (new_root : BPath) (subdir : BPath) : BPath :=
  if subdir.relativeTo new_root then subdir
  else { absolute := new_root.absolute, comps := new_root.comps ++ subdir.comps }

/-- Embedding of the `Action` pydantic model (config.py). `args` is the
"accepts extra args" flag, `bg` the "backgroundable" flag. -/
structure Action where
  name : String
  module_name : String
  cmd : String
  args : Bool := false
  watch_cmd : Option String := none
  work_dir : BPath
  bg : Bool := false
deriving DecidableEq, Repr

/-- Embedding of the `Module` pydantic model after validation: its actions
dict is an association list in insertion order. -/
structure Module where
  name : String
  work_dir : BPath
  actions : List (String × Action)
deriving DecidableEq, Repr

/-- Embedding of `BPMConfig` after validation: the modules dict in
declaration order. -/
structure BPMConfig where
  modules : List (String × Module)
deriving DecidableEq, Repr

/-- Raw per-action configuration, before the `Module` before-validators run:
only `cmd` is required; `work_dir` may be absent (inherited). -/
structure RawAction where
  cmd : String
  args : Bool := false
  watch_cmd : Option String := none
  work_dir : Option BPath := none
  bg : Bool := false
deriving DecidableEq, Repr

/-- Embedding of `Module` validation (config.py): pydantic runs the two
before-validators in reverse definition order, so
`rebase_workdir_onto_git_repo_root` rebases the module's `work_dir` first,
then `set_additional_action_fields` fills each action's `work_dir` (the
already-rebased module dir when absent, otherwise the action's own dir
rebased), `name` and `module_name`; finally the after-validator
`assert_workdir_exists` checks that the module's `work_dir` exists in the
filesystem `fs`. Only the module's directory is checked. -/
def validateModule (fs : BPath → Bool) (repoRoot : BPath) (name : String)
    (work_dir : BPath) (actions : List (String × RawAction)) :
    Except String Module :=
  let mwd := rebase_path repoRoot work_dir
  let acts : List (String × Action) := actions.map (fun p =>
    (p.1,
      { name := p.1
        module_name := name
        cmd := p.2.cmd
        args := p.2.args
        watch_cmd := p.2.watch_cmd
        work_dir :=
          match p.2.work_dir with
          | none => mwd
          | some w => rebase_path repoRoot w
        bg := p.2.bg }))
  if fs mwd then .ok { name := name, work_dir := mwd, actions := acts }
  else .error "workdir does not exist"

/-- Python-dict read used by `all_actions`: `cmds.get(c_name)` coerced to a
list, with both "absent" and "present but empty" reading as `[]` (both are
falsy in `if not cmds.get(c_name)`). -/
def dictGet (d : List (String × List Action)) (k : String) : List Action :=
  (d.lookup k).getD []

/-- Whether the dict has the key (entry order preserved on update). -/
def dictHasKey (d : List (String × List Action)) (k : String) : Bool :=
  d.any (fun p => p.1 == k)

/-- Python-dict write: updating an existing key keeps its position, a new
key is appended at the end (insertion order). -/
def dictSet (d : List (String × List Action)) (k : String) (v : List Action) :
    List (String × List Action) :=
  if dictHasKey d k then d.map (fun p => if p.1 == k then (k, v) else p)
  else d ++ [(k, v)]

/-- One iteration of the `all_actions` loop body (config.py):
`if not cmds.get(c_name): cmds[c_name] = []` then `cmds[c_name] += [c_data]`. -/
def allActionsStep (cmds : List (String × List Action)) (k : String)
    (a : Action) : List (String × List Action) :=
  let cmds1 := if dictGet cmds k = [] then dictSet cmds k [] else cmds
  dictSet cmds1 k (dictGet cmds1 k ++ [a])

/-- The inner loop of `all_actions` over one module's actions. -/
def moduleFold (cmds : List (String × List Action)) (m : Module) :
    List (String × List Action) :=
  m.actions.foldl (fun c p => allActionsStep c p.1 p.2) cmds

/-- Embedding of `BPMConfig.all_actions` (config.py): all actions collected
from all modules, keyed by action name, in module declaration order. -/
def all_actions (cfg : BPMConfig) : List (String × List Action) :=
  cfg.modules.foldl (fun c p => moduleFold c p.2) []

/-- Embedding of `BPMConfig.action_groups` (config.py): the entries of
`all_actions` whose list has more than one element. -/
def action_groups (cfg : BPMConfig) : List (String × List Action) :=
  (all_actions cfg).filter (fun p => 1 < p.2.length)

/-- The four resolution failures of `Args.__init__` (cli.py), each of which
calls `logger.error(..., exiting=True)` and hence exits with code 1. -/
inductive ResolutionError
  | UnknownModule
  | UnknownAction
  | ArgsNotAllowed
  | NotAGroup
deriving DecidableEq, Repr

/-- The aggregate warning `Args.__init__` emits when only some of a group's
actions accept extra arguments: `accepting` of `total` actions accept them. -/
structure ArgsWarning where
  accepting : Nat
  total : Nat
deriving DecidableEq, Repr

/-- The resolved unit of work: the selected actions, the pass-through
arguments, and the aggregate warning if one was emitted. -/
structure Invocation where
  actions : List Action
  args : List String
  warning : Option ArgsWarning := none
deriving DecidableEq, Repr

/-- Embedding of `Args.__init__` (cli.py): resolve a user request against a
validated configuration. The module-qualified branch checks module, action
and the args flag; the unqualified branch requires the name to be an action
group and applies the any/all acceptance rules. -/
def resolve (config : BPMConfig) (moduleName : Option String)
    (actionName : String) (extraArgs : List String) :
    Except ResolutionError Invocation :=
  match moduleName with
  | some mname =>
    match config.modules.lookup mname with
    | none => .error .UnknownModule
    | some m =>
      match m.actions.lookup actionName with
      | none => .error .UnknownAction
      | some a =>
        if extraArgs ≠ [] ∧ a.args = false then .error .ArgsNotAllowed
        else .ok { actions := [a], args := extraArgs }
  | none =>
    match (action_groups config).lookup actionName with
    | none => .error .NotAGroup
    | some acts =>
      if extraArgs ≠ [] then
        if (acts.filter (fun a => a.args)).length = 0 then .error .ArgsNotAllowed
        else if (acts.filter (fun a => a.args)).length < acts.length then
          .ok { actions := acts, args := extraArgs,
                warning := some { accepting := (acts.filter (fun a => a.args)).length,
                                  total := acts.length } }
        else .ok { actions := acts, args := extraArgs }
      else .ok { actions := acts, args := extraArgs }

/-- Embedding of `ActionRunner.can_run_simultaneously` (cli.py):
`all([a.bg for a in self.actions])`. -/
def canRunSimultaneously (actions : List Action) : Bool :=
  actions.all (fun a => a.bg)

/-- The two execution modes of `ActionRunner.run`. -/
inductive RunMode
  | concurrent
  | sequential
deriving DecidableEq, Repr

/-- The branch `ActionRunner.run` takes on `self.can_run_simultaneously`. -/
def selectMode (actions : List Action) : RunMode :=
  if canRunSimultaneously actions then .concurrent else .sequential

/-- Embedding of the command construction of `ActionRunner.run` (cli.py,
both branches): `shlex.split(action.cmd) + self.action_args`. The
tokenizer `tok` abstracts the external `shlex.split`. Note that the extra
args are appended for every action, with no per-action gate. -/
def buildCommand (tok : String → List String) (a : Action)
    (actionArgs : List String) : List String :=
  tok a.cmd ++ actionArgs

/-- One result of `stream.readline` in `_stream_output`: a line, or the
exception that aborts the reader. -/
inductive ReadEvent
  | line (s : String)
  | fail (msg : String)
deriving DecidableEq, Repr

/-- The line `logger.error` prints inside `_stream_output` when a read
fails: it carries the action's output tag. -/
def streamErrorLine (tag msg : String) : String :=
  "ERROR: [" ++ tag ++ "] Error reading stream: " ++ msg

/-- Embedding of `ActionRunner._stream_output` (cli.py), run on a daemon
thread. Returns the printed lines and whether the reader thread exited via
the `SystemExit` raised by `logger.error` (which, on a daemon thread, kills
only that thread, never the run). A non-empty line is printed tagged; a
read failure logs one error line and stops the reader. -/
def streamOutput (tag : String) : List ReadEvent → List String × Bool
  | [] => ([], false)
  | .line s :: rest =>
    let r := streamOutput tag rest
    (if s ≠ "" then ("[" ++ tag ++ "] " ++ s) :: r.1 else r.1, r.2)
  | .fail msg :: _ => ([streamErrorLine tag msg], true)

/-- How one child process reacts to teardown: whether tearing it down
raises, and whether it exits within the grace period after `terminate()`. -/
structure ProcState where
  raises : Bool
  exitsWithinGrace : Bool
deriving DecidableEq, Repr

/-- The grace period `_kill_all_processes` passes to `proc.wait` (seconds). -/
def gracePeriod : Nat := 3

/-- What happened while tearing down one process. -/
structure TeardownStep where
  action : Action
  terminated : Bool
  waitTimeout : Nat
  forceKilled : Bool
  errorLogged : Bool
deriving DecidableEq, Repr

/-- Teardown of a single process inside `_kill_all_processes` (cli.py):
`terminate()`, `wait(timeout=3)`, and on `TimeoutExpired` a `kill()` plus
final `wait()`; any exception is logged with `exiting=False`. -/
def teardownOne (beh : Action → ProcState) (a : Action) : TeardownStep :=
  if (beh a).raises then
    { action := a, terminated := false, waitTimeout := 0,
      forceKilled := false, errorLogged := true }
  else
    { action := a, terminated := true, waitTimeout := gracePeriod,
      forceKilled := !(beh a).exitsWithinGrace, errorLogged := false }

/-- Embedding of `ActionRunner._kill_all_processes` (cli.py): every live
process is torn down in turn (an exception on one is logged and the loop
continues), then `self.processes.clear()` empties the live set. -/
def killAllProcesses (beh : Action → ProcState) (procs : List Action) :
    List TeardownStep × List Action :=
  (procs.map (teardownOne beh), [])

/-- How the run ended. -/
inductive ExitKind
  | completed
  | interrupted
  | spawnFailed
deriving DecidableEq, Repr

/-- Observable outcome of `ActionRunner.run`: processes spawned with their
full command lines, the contents of `self.processes` when `run` returns or
the interpreter exits, how it ended, the `sys.exit` code if any, and the
lines the stream readers printed. -/
structure RunResult where
  spawned : List (Action × List String)
  liveAtExit : List Action
  exitKind : ExitKind
  exitCode : Option Nat
  logs : List String
deriving DecidableEq, Repr

/-- The spawn loop of the concurrent branch: each action's command is built
and the process started; a spawn failure (`FileNotFoundError`) stops the
loop with the processes spawned so far, mirroring
`logger.error(..., exiting=True)`. -/
def spawnAll (tok : String → List String) (spawnOk : Action → Bool)
    (actionArgs : List String) :
    List Action → List (Action × List String) →
    List (Action × List String) × Bool
  | [], acc => (acc, true)
  | a :: rest, acc =>
    if spawnOk a then
      spawnAll tok spawnOk actionArgs rest (acc ++ [(a, buildCommand tok a actionArgs)])
    else (acc, false)

/-- The output tag of an action: `module_name.action_name`. -/
def actionTag (a : Action) : String :=
  a.module_name ++ "." ++ a.name

/-- All lines printed by the stream-reader threads of the spawned
processes (stdout tagged with the action tag, stderr with the tag plus
`ERR`). -/
def streamLogs (so se : Action → List ReadEvent)
    (spawned : List (Action × List String)) : List String :=
  spawned.flatMap (fun p =>
    (streamOutput (actionTag p.1) (so p.1)).1 ++
    (streamOutput (actionTag p.1 ++ " ERR") (se p.1)).1)

/-- Embedding of the concurrent branch of `ActionRunner.run` (cli.py).
A spawn failure exits with code 1 leaving the already-spawned processes in
`self.processes` (the `SystemExit` from `logger.error` is not caught by the
`except KeyboardInterrupt` handler, so `_kill_all_processes` never runs).
A `KeyboardInterrupt` during the poll loop runs `_kill_all_processes` and
exits with code 1. Otherwise the poll loop removes each process on exit
and the run completes with the live set empty. -/
def runConcurrent (tok : String → List String) (spawnOk : Action → Bool)
    (interrupt : Bool) (beh : Action → ProcState)
    (so se : Action → List ReadEvent)
    (actions : List Action) (actionArgs : List String) : RunResult :=
  if (spawnAll tok spawnOk actionArgs actions []).2 = false then
    { spawned := (spawnAll tok spawnOk actionArgs actions []).1,
      liveAtExit := (spawnAll tok spawnOk actionArgs actions []).1.map Prod.fst,
      exitKind := .spawnFailed, exitCode := some 1,
      logs := streamLogs so se (spawnAll tok spawnOk actionArgs actions []).1 }
  else if interrupt then
    { spawned := (spawnAll tok spawnOk actionArgs actions []).1,
      liveAtExit := (killAllProcesses beh
        ((spawnAll tok spawnOk actionArgs actions []).1.map Prod.fst)).2,
      exitKind := .interrupted, exitCode := some 1,
      logs := streamLogs so se (spawnAll tok spawnOk actionArgs actions []).1 }
  else
    { spawned := (spawnAll tok spawnOk actionArgs actions []).1,
      liveAtExit := [], exitKind := .completed, exitCode := none,
      logs := streamLogs so se (spawnAll tok spawnOk actionArgs actions []).1 }

/-- Embedding of the sequential branch of `ActionRunner.run` (cli.py):
each action's command is built the same way and run to completion with
`subprocess.run`; a `FileNotFoundError` exits with code 1 and aborts the
rest. `self.processes` is never populated in this branch. -/
def runSeq (tok : String → List String) (spawnOk : Action → Bool)
    (actionArgs : List String) :
    List Action → List (Action × List String) → RunResult
  | [], acc =>
    { spawned := acc, liveAtExit := [], exitKind := .completed,
      exitCode := none, logs := [] }
  | a :: rest, acc =>
    if spawnOk a then
      runSeq tok spawnOk actionArgs rest (acc ++ [(a, buildCommand tok a actionArgs)])
    else
      { spawned := acc, liveAtExit := [], exitKind := .spawnFailed,
        exitCode := some 1, logs := [] }

/-- Embedding of `ActionRunner.run` (cli.py): dispatch on
`can_run_simultaneously`. -/
def runActions (tok : String → List String) (spawnOk : Action → Bool)
    (interrupt : Bool) (beh : Action → ProcState)
    (so se : Action → List ReadEvent)
    (actions : List Action) (actionArgs : List String) : RunResult :=
  match selectMode actions with
  | .concurrent => runConcurrent tok spawnOk interrupt beh so se actions actionArgs
  | .sequential => runSeq tok spawnOk actionArgs actions []

/-- Embedding of `main` (cli.py) after configuration loading: resolution
happens first (`Args(config)`), and only on success is an `ActionRunner`
constructed and `run()` called. -/
def bpmRun (tok : String → List String) (spawnOk : Action → Bool)
    (interrupt : Bool) (beh : Action → ProcState)
    (so se : Action → List ReadEvent)
    (config : BPMConfig) (moduleName : Option String) (actionName : String)
    (extraArgs : List String) : Except ResolutionError RunResult :=
  match resolve config moduleName actionName extraArgs with
  | .error e => .error e
  | .ok inv => .ok (runActions tok spawnOk interrupt beh so se inv.actions inv.args)

/-- The processes spawned over a whole invocation: none when resolution
failed (the program exits before any `ActionRunner` exists). -/
def spawnedProcs : Except ResolutionError RunResult → List (Action × List String)
  | .error _ => []
  | .ok r => r.spawned

/-! ### A concrete configuration (the scenario of spec §8) -/

/-- The project root used by the concrete examples. -/
def repoDir : BPath := { absolute := true, comps := ["repo"] }

/-- `api.start`: does not accept extra args, not backgroundable. -/
def apiStart : Action :=
  { name := "start", module_name := "api", cmd := "npm start", args := false,
    work_dir := { absolute := true, comps := ["repo", "api"] }, bg := false }

/-- `web.start`: accepts extra args, backgroundable. -/
def webStart : Action :=
  { name := "start", module_name := "web", cmd := "npm run dev", args := true,
    work_dir := { absolute := true, comps := ["repo", "web"] }, bg := true }

/-- The `api` module. -/
def apiModule : Module :=
  { name := "api", work_dir := { absolute := true, comps := ["repo", "api"] },
    actions := [("start", apiStart)] }

/-- The `web` module. -/
def webModule : Module :=
  { name := "web", work_dir := { absolute := true, comps := ["repo", "web"] },
    actions := [("start", webStart)] }

/-- The two-module configuration of the spec's §8 scenario. -/
def demoConfig : BPMConfig :=
  { modules := [("api", apiModule), ("web", webModule)] }

/-- An environment tokenizer treating the whole command string as one word
(the tokenizer is an abstract parameter of the run model). -/
def tok0 : String → List String := fun s => [s]

/-- An environment where every spawn succeeds. -/
def spawnOkAll : Action → Bool := fun _ => true

/-- Child behaviour: teardown never raises, children exit within grace. -/
def behCooperative : Action → ProcState :=
  fun _ => { raises := false, exitsWithinGrace := true }

/-- Streams that yield nothing. -/
def noStream : Action → List ReadEvent := fun _ => []

/-- `db.start`: does not accept extra args, but backgroundable (used to
exercise the concurrent branch). -/
def dbStart : Action :=
  { name := "start", module_name := "db", cmd := "db run", args := false,
    work_dir := { absolute := true, comps := ["repo", "db"] }, bg := true }

/-- A spawn environment where only the `web` module's processes fail to
launch. -/
def spawnOkNotWeb : Action → Bool := fun a => a.module_name != "web"

/-- Filesystem for the C7 example: only `/repo/api` exists. -/
def demoFs : BPath → Bool :=
  fun p => p == { absolute := true, comps := ["repo", "api"] }

/-- A raw action whose explicit working directory `missing` exists nowhere. -/
def rawBuild : RawAction :=
  { cmd := "make", work_dir := some { absolute := false, comps := ["missing"] } }

/-! ### Dictionary lemmas -/

theorem lookup_eq_none_of_not_hasKey {d : List (String × List Action)} {k : String}
    (h : dictHasKey d k = false) : d.lookup k = none := by
  rw [List.lookup_eq_none_iff]
  intro p hp
  simp only [dictHasKey, List.any_eq_false] at h
  have := h p hp
  simp only [bne_iff_ne, ne_eq]
  intro hk
  exact absurd (by simp [hk]) this

theorem dictHasKey_cons (p : String × List Action)
    (d : List (String × List Action)) (k : String) :
    dictHasKey (p :: d) k = (p.1 == k || dictHasKey d k) := by
  simp [dictHasKey]

theorem lookup_replace (d : List (String × List Action)) (k n : String)
    (v : List Action) :
    (d.map (fun p => if p.1 == k then (k, v) else p)).lookup n =
      if n = k then (if dictHasKey d k then some v else none) else d.lookup n := by
  induction d with
  | nil => simp [dictHasKey]
  | cons p rest ih =>
    rcases p with ⟨k1, v1⟩
    simp only [List.map_cons]
    by_cases h1 : k1 = k
    · subst h1
      rw [show (if (k1 == k1) = true then (k1, v) else (k1, v1)) = (k1, v) by simp]
      rw [dictHasKey_cons]
      by_cases hn : n = k1
      · subst hn
        simp [List.lookup_cons]
      · rw [List.lookup_cons, List.lookup_cons]
        simp only [beq_false_of_ne hn]
        rw [ih]
        simp [hn]
    · rw [show (if (k1 == k) = true then (k, v) else (k1, v1)) = (k1, v1) by
        simp [beq_false_of_ne h1]]
      rw [dictHasKey_cons]
      simp only [beq_false_of_ne h1, Bool.false_or]
      by_cases hn : n = k1
      · subst hn
        have hnk : ¬n = k := h1
        simp [List.lookup_cons, hnk]
      · rw [List.lookup_cons, List.lookup_cons]
        simp only [beq_false_of_ne hn]
        rw [ih]

theorem lookup_dictSet (d : List (String × List Action)) (k n : String)
    (v : List Action) :
    (dictSet d k v).lookup n = if n = k then some v else d.lookup n := by
  unfold dictSet
  by_cases hk : dictHasKey d k
  · rw [if_pos hk, lookup_replace, hk]
    simp
  · rw [if_neg hk, List.lookup_append]
    by_cases hn : n = k
    · subst hn
      rw [lookup_eq_none_of_not_hasKey (Bool.not_eq_true _ ▸ hk)]
      simp [List.lookup_cons]
    · simp only [List.lookup_cons, beq_false_of_ne hn, List.lookup_nil,
        Option.or_none, if_neg hn]

theorem dictGet_dictSet (d : List (String × List Action)) (k n : String)
    (v : List Action) :
    dictGet (dictSet d k v) n = if n = k then v else dictGet d n := by
  unfold dictGet
  rw [lookup_dictSet]
  by_cases hn : n = k <;> simp [hn]

theorem dictGet_allActionsStep (cmds : List (String × List Action))
    (k n : String) (a : Action) :
    dictGet (allActionsStep cmds k a) n =
      if n = k then dictGet cmds n ++ [a] else dictGet cmds n := by
  unfold allActionsStep
  by_cases h0 : dictGet cmds k = []
  · rw [if_pos h0]
    rw [dictGet_dictSet, dictGet_dictSet, dictGet_dictSet]
    by_cases hn : n = k <;> simp [hn, h0]
  · rw [if_neg h0, dictGet_dictSet]
    by_cases hn : n = k <;> simp [hn]

theorem dictGet_actionsFold (acts : List (String × Action))
    (cmds : List (String × List Action)) (n : String) :
    dictGet (acts.foldl (fun c q => allActionsStep c q.1 q.2) cmds) n =
      dictGet cmds n ++ (acts.filter (fun q => q.1 == n)).map Prod.snd := by
  induction acts generalizing cmds with
  | nil => simp
  | cons q rest ih =>
    rw [List.foldl_cons, ih, dictGet_allActionsStep]
    by_cases h : q.1 = n
    · rw [if_pos h.symm]
      simp [List.filter_cons, h]
    · rw [if_neg (fun hh => h hh.symm)]
      simp [List.filter_cons, beq_false_of_ne h]

theorem dictGet_modulesFold (ms : List (String × Module))
    (cmds : List (String × List Action)) (n : String) :
    dictGet (ms.foldl (fun c p => moduleFold c p.2) cmds) n =
      dictGet cmds n ++
        ms.flatMap (fun p => (p.2.actions.filter (fun q => q.1 == n)).map Prod.snd) := by
  induction ms generalizing cmds with
  | nil => simp
  | cons m rest ih =>
    rw [List.foldl_cons, ih, moduleFold, dictGet_actionsFold, List.flatMap_cons,
      List.append_assoc]

/-- The flat `all_actions` mapping reads, at each name, the concatenation
over modules (in declaration order) of that module's actions carrying the
name. -/
theorem dictGet_all_actions (cfg : BPMConfig) (n : String) :
    dictGet (all_actions cfg) n =
      cfg.modules.flatMap
        (fun p => (p.2.actions.filter (fun q => q.1 == n)).map Prod.snd) := by
  rw [all_actions, dictGet_modulesFold]
  simp [dictGet]

theorem keys_dictSet_of_hasKey {d : List (String × List Action)} {k : String}
    (v : List Action) (hk : dictHasKey d k = true) :
    (dictSet d k v).map Prod.fst = d.map Prod.fst := by
  unfold dictSet
  rw [if_pos hk, List.map_map]
  apply List.map_congr_left
  intro p _
  by_cases h : p.1 = k
  · simp [Function.comp, h]
  · simp [Function.comp, beq_false_of_ne h]

theorem keys_dictSet_of_not_hasKey {d : List (String × List Action)} {k : String}
    (v : List Action) (hk : dictHasKey d k = false) :
    (dictSet d k v).map Prod.fst = d.map Prod.fst ++ [k] := by
  unfold dictSet
  simp [hk]

theorem not_mem_keys_of_not_hasKey {d : List (String × List Action)} {k : String}
    (hk : dictHasKey d k = false) : k ∉ d.map Prod.fst := by
  simp only [dictHasKey, List.any_eq_false] at hk
  intro hmem
  rcases List.mem_map.mp hmem with ⟨p, hp, hpk⟩
  have hf := hk p hp
  rw [hpk] at hf
  simp at hf

theorem nodupKeys_dictSet {d : List (String × List Action)} (k : String)
    (v : List Action) (h : (d.map Prod.fst).Nodup) :
    ((dictSet d k v).map Prod.fst).Nodup := by
  by_cases hk : dictHasKey d k
  · rw [keys_dictSet_of_hasKey v hk]
    exact h
  · have hk' : dictHasKey d k = false := Bool.not_eq_true _ ▸ hk
    rw [keys_dictSet_of_not_hasKey v hk']
    simp [List.nodup_append, h, not_mem_keys_of_not_hasKey hk']

theorem nodupKeys_allActionsStep {cmds : List (String × List Action)}
    (k : String) (a : Action) (h : (cmds.map Prod.fst).Nodup) :
    ((allActionsStep cmds k a).map Prod.fst).Nodup := by
  unfold allActionsStep
  by_cases h0 : dictGet cmds k = []
  · rw [if_pos h0]
    exact nodupKeys_dictSet _ _ (nodupKeys_dictSet _ _ h)
  · rw [if_neg h0]
    exact nodupKeys_dictSet _ _ h

theorem nodupKeys_actionsFold (acts : List (String × Action))
    {cmds : List (String × List Action)} (h : (cmds.map Prod.fst).Nodup) :
    (((acts.foldl (fun c q => allActionsStep c q.1 q.2) cmds)).map Prod.fst).Nodup := by
  induction acts generalizing cmds with
  | nil => exact h
  | cons q rest ih => exact ih (nodupKeys_allActionsStep _ _ h)

theorem nodupKeys_all_actions (cfg : BPMConfig) :
    ((all_actions cfg).map Prod.fst).Nodup := by
  rw [all_actions]
  have main : ∀ (ms : List (String × Module)) (cmds : List (String × List Action)),
      (cmds.map Prod.fst).Nodup →
      ((ms.foldl (fun c p => moduleFold c p.2) cmds).map Prod.fst).Nodup := by
    intro ms
    induction ms with
    | nil => exact fun _ h => h
    | cons m rest ih =>
      intro cmds h
      exact ih _ (nodupKeys_actionsFold _ h)
  exact main cfg.modules [] (by simp)

theorem lookup_filter_of_nodupKeys {d : List (String × List Action)}
    (p : String × List Action → Bool) (n : String)
    (h : (d.map Prod.fst).Nodup) :
    (d.filter p).lookup n =
      (d.lookup n).bind (fun v => if p (n, v) then some v else none) := by
  induction d with
  | nil => simp
  | cons q rest ih =>
    rcases q with ⟨k1, v1⟩
    simp only [List.map_cons, List.nodup_cons] at h
    by_cases hn : n = k1
    · subst hn
      rw [List.lookup_cons_self, List.filter_cons, Option.some_bind]
      by_cases hp : p (n, v1) = true
      · rw [if_pos hp, List.lookup_cons_self, if_pos hp]
      · rw [if_neg hp, if_neg hp]
        rw [List.lookup_eq_none_iff]
        intro q hq
        have hq' : q ∈ rest := List.mem_of_mem_filter hq
        simp only [bne_iff_ne, ne_eq]
        intro he
        exact h.1 (List.mem_map.mpr ⟨q, hq', he.symm⟩)
    · rw [List.lookup_cons, List.filter_cons]
      simp only [beq_false_of_ne hn]
      by_cases hp : p (k1, v1) = true
      · rw [if_pos hp, List.lookup_cons]
        simp only [beq_false_of_ne hn]
        exact ih h.2
      · rw [if_neg hp]
        exact ih h.2

theorem filter_map_eq_lookup_toList {acts : List (String × Action)} (n : String)
    (h : (acts.map Prod.fst).Nodup) :
    (acts.filter (fun q => q.1 == n)).map Prod.snd = (acts.lookup n).toList := by
  induction acts with
  | nil => simp
  | cons q rest ih =>
    rcases q with ⟨k1, a1⟩
    simp only [List.map_cons, List.nodup_cons] at h
    by_cases hn : k1 = n
    · subst hn
      rw [List.filter_cons, if_pos (by simp), List.lookup_cons_self]
      have hempty : rest.filter (fun q => q.1 == k1) = [] := by
        rw [List.filter_eq_nil_iff]
        intro q hq
        simp only [beq_eq_false_iff_ne, ne_eq, Bool.not_eq_true]
        intro he
        exact h.1 (List.mem_map.mpr ⟨q, hq, he⟩)
      simp [hempty]
    · rw [List.filter_cons, if_neg (by simp [hn]), List.lookup_cons]
      simp only [beq_false_of_ne (fun he => hn he.symm)]
      exact ih h.2

theorem flatMap_filter_eq_filterMap_lookup (ms : List (String × Module)) (n : String)
    (h : ∀ p ∈ ms, (p.2.actions.map Prod.fst).Nodup) :
    ms.flatMap (fun p => (p.2.actions.filter (fun q => q.1 == n)).map Prod.snd)
      = ms.filterMap (fun p => p.2.actions.lookup n) := by
  induction ms with
  | nil => rfl
  | cons m rest ih =>
    rw [List.flatMap_cons, List.filterMap_cons,
      filter_map_eq_lookup_toList n (h m (List.mem_cons_self m rest))]
    cases hm : m.2.actions.lookup n <;>
      simp [hm, ih (fun p hp => h p (List.mem_cons_of_mem _ hp))]

theorem length_filterMap_lookup (ms : List (String × Module)) (n : String) :
    (ms.filterMap (fun p => p.2.actions.lookup n)).length
      = (ms.filter (fun p => (p.2.actions.lookup n).isSome)).length := by
  induction ms with
  | nil => rfl
  | cons m rest ih =>
    cases hm : m.2.actions.lookup n <;>
      simp [List.filterMap_cons, List.filter_cons, hm, ih]

/-- C2: for every configuration (whose per-module action dicts have, as
Python dicts do, no duplicate keys), the flat `all_actions` mapping sends
each action name to the list of all Actions carrying that name across
modules — one per defining module, in module declaration order, so its
length is the number of modules defining the name — and `action_groups`
consists exactly of the entries of `all_actions` whose list has length at
least two. -/
theorem all_actions_spec (cfg : BPMConfig) (n : String)
    (h : ∀ p ∈ cfg.modules, (p.2.actions.map Prod.fst).Nodup) :
    dictGet (all_actions cfg) n
        = cfg.modules.filterMap (fun p => p.2.actions.lookup n)
    ∧ (dictGet (all_actions cfg) n).length
        = (cfg.modules.filter (fun p => (p.2.actions.lookup n).isSome)).length
    ∧ (∀ q, q ∈ action_groups cfg ↔ q ∈ all_actions cfg ∧ 2 ≤ q.2.length) := by
  refine ⟨?_, ?_, ?_⟩
  · rw [dictGet_all_actions]
    exact flatMap_filter_eq_filterMap_lookup _ n h
  · rw [dictGet_all_actions, flatMap_filter_eq_filterMap_lookup _ n h]
    exact length_filterMap_lookup _ n
  · intro q
    rw [action_groups, List.mem_filter]
    simp [Nat.lt_iff_add_one_le]


/-- Witness for C2 at the concrete two-module configuration. -/
theorem all_actions_spec_witness :
    (∀ p ∈ demoConfig.modules, (p.2.actions.map Prod.fst).Nodup)
    ∧ dictGet (all_actions demoConfig) "start"
        = demoConfig.modules.filterMap (fun p => p.2.actions.lookup "start")
    ∧ dictGet (all_actions demoConfig) "start" = [apiStart, webStart] :=
  ⟨by decide, (all_actions_spec demoConfig "start" (by decide)).1, by decide⟩


/-- C3: the orchestrator selects concurrent mode exactly when every
action's `bg` flag is true, and sequential mode exactly when some action's
flag is false; the selector is the `all` (AND) of the flags. -/
theorem selectMode_spec (actions : List Action) :
    (selectMode actions = .concurrent ↔ ∀ a ∈ actions, a.bg = true)
    ∧ (selectMode actions = .sequential ↔ ∃ a ∈ actions, a.bg = false)
    ∧ selectMode actions
        = (if actions.all (fun a => a.bg) then RunMode.concurrent else RunMode.sequential) := by
  refine ⟨?_, ?_, rfl⟩
  · rw [selectMode]
    by_cases h : canRunSimultaneously actions
    · rw [if_pos h]
      rw [canRunSimultaneously, List.all_eq_true] at h
      exact ⟨fun _ => h, fun _ => rfl⟩
    · rw [if_neg h]
      have h' : canRunSimultaneously actions = false := Bool.not_eq_true _ ▸ h
      rw [canRunSimultaneously, List.all_eq_false] at h'
      constructor
      · intro hc
        exact absurd hc (by simp)
      · intro hall
        rcases h' with ⟨a, ha, hb⟩
        rw [hall a ha] at hb
        simp at hb
  · rw [selectMode]
    by_cases h : canRunSimultaneously actions
    · rw [if_pos h]
      rw [canRunSimultaneously, List.all_eq_true] at h
      constructor
      · intro hc
        exact absurd hc (by simp)
      · rintro ⟨a, ha, hb⟩
        rw [h a ha] at hb
        simp at hb
    · rw [if_neg h]
      have h' : canRunSimultaneously actions = false := Bool.not_eq_true _ ▸ h
      rw [canRunSimultaneously, List.all_eq_false] at h'
      simp only [true_iff]
      rcases h' with ⟨a, ha, hb⟩
      exact ⟨a, ha, Bool.not_eq_true _ ▸ hb⟩

/-- C4: module-qualified resolution fails with `UnknownModule` for a module
absent from the registry, `UnknownAction` for an action not on that module,
`ArgsNotAllowed` for non-empty extra args on an action whose `args` flag is
false; any failure leaves zero processes spawned; success yields exactly
one action. -/
theorem resolve_module_qualified (config : BPMConfig) (mname actionName : String)
    (extraArgs : List String) (tok : String → List String)
    (spawnOk : Action → Bool) (interrupt : Bool) (beh : Action → ProcState)
    (so se : Action → List ReadEvent) :
    (config.modules.lookup mname = none →
      resolve config (some mname) actionName extraArgs = .error .UnknownModule)
    ∧ (∀ m, config.modules.lookup mname = some m →
        m.actions.lookup actionName = none →
        resolve config (some mname) actionName extraArgs = .error .UnknownAction)
    ∧ (∀ m a, config.modules.lookup mname = some m →
        m.actions.lookup actionName = some a →
        extraArgs ≠ [] → a.args = false →
        resolve config (some mname) actionName extraArgs = .error .ArgsNotAllowed)
    ∧ (∀ e, resolve config (some mname) actionName extraArgs = .error e →
        spawnedProcs (bpmRun tok spawnOk interrupt beh so se config
          (some mname) actionName extraArgs) = [])
    ∧ (∀ inv, resolve config (some mname) actionName extraArgs = .ok inv →
        inv.actions.length = 1) := by
  refine ⟨?_, ?_, ?_, ?_, ?_⟩
  · intro h
    simp [resolve, h]
  · intro m hm ha
    simp [resolve, hm, ha]
  · intro m a hm ha hne hargs
    simp [resolve, hm, ha, hne, hargs]
  · intro e he
    unfold bpmRun
    rw [he]
    rfl
  · intro inv hinv
    cases hm : config.modules.lookup mname with
    | none => simp [resolve, hm] at hinv
    | some m =>
      cases ha : m.actions.lookup actionName with
      | none => simp [resolve, hm, ha] at hinv
      | some a =>
        by_cases hc : extraArgs ≠ [] ∧ a.args = false
        · simp [resolve, hm, ha, hc] at hinv
        · have hok : resolve config (some mname) actionName extraArgs
              = .ok { actions := [a], args := extraArgs, warning := none } := by
            simp [resolve, hm, ha, hc]
          rw [hok] at hinv
          cases hinv
          rfl

/-- Witness for C4 on the concrete configuration: unknown module, args not
allowed, and zero processes spawned after a failure. -/
theorem resolve_module_qualified_witness :
    resolve demoConfig (some "deploy") "build" [] = .error .UnknownModule
    ∧ resolve demoConfig (some "api") "start" ["--verbose"] = .error .ArgsNotAllowed
    ∧ spawnedProcs (bpmRun tok0 spawnOkAll false behCooperative noStream noStream
        demoConfig (some "deploy") "build" []) = [] :=
  ⟨(resolve_module_qualified demoConfig "deploy" "build" [] tok0 spawnOkAll false
      behCooperative noStream noStream).1 (by decide),
   (resolve_module_qualified demoConfig "api" "start" ["--verbose"] tok0 spawnOkAll false
      behCooperative noStream noStream).2.2.1 apiModule apiStart (by decide) (by decide)
      (by decide) (by decide),
   (resolve_module_qualified demoConfig "deploy" "build" [] tok0 spawnOkAll false
      behCooperative noStream noStream).2.2.2.1 .UnknownModule
      ((resolve_module_qualified demoConfig "deploy" "build" [] tok0 spawnOkAll false
        behCooperative noStream noStream).1 (by decide))⟩

/-- C5: for an unqualified group invocation with non-empty extra args,
resolution fails with `ArgsNotAllowed` when no action in the group accepts
args, and succeeds carrying the aggregate warning (count of accepting
actions out of the group size) when some but not all accept them. -/
theorem resolve_group_args (config : BPMConfig) (actionName : String)
    (extraArgs : List String) (acts : List Action)
    (hlk : (action_groups config).lookup actionName = some acts)
    (hne : extraArgs ≠ []) :
    ((∀ a ∈ acts, a.args = false) →
      resolve config none actionName extraArgs = .error .ArgsNotAllowed)
    ∧ ((∃ a ∈ acts, a.args = true) → (∃ a ∈ acts, a.args = false) →
      resolve config none actionName extraArgs =
        .ok { actions := acts, args := extraArgs,
              warning := some { accepting := (acts.filter (fun a => a.args)).length,
                                total := acts.length } }) := by
  constructor
  · intro hall
    have hnil : acts.filter (fun a => a.args) = [] := by
      rw [List.filter_eq_nil_iff]
      intro a ha
      simp [hall a ha]
    simp [resolve, hlk, hne, hnil]
  · intro hex hnotall
    have hpos : (acts.filter (fun a => a.args)).length ≠ 0 := by
      intro h0
      rcases hex with ⟨a, ha, hargs⟩
      have : acts.filter (fun a => a.args) = [] := List.length_eq_zero.mp h0
      rw [List.filter_eq_nil_iff] at this
      exact this a ha (by simp [hargs])
    have hlt : (acts.filter (fun a => a.args)).length < acts.length := by
      apply Nat.lt_of_le_of_ne (List.length_filter_le _ _)
      intro heq
      rcases hnotall with ⟨a, ha, hargs⟩
      have := List.filter_length_eq_length.mp heq a ha
      rw [hargs] at this
      simp at this
    simp [resolve, hlk, hne, hpos, hlt]

/-- Witness for C5 on the concrete configuration: the `start` group has one
accepting and one non-accepting action, so resolution succeeds with the
warning counting 1 of 2. -/
theorem resolve_group_args_witness :
    resolve demoConfig none "start" ["--verbose"] =
      .ok { actions := [apiStart, webStart], args := ["--verbose"],
            warning := some { accepting := 1, total := 2 } } :=
  (resolve_group_args demoConfig "start" ["--verbose"] [apiStart, webStart]
      (by decide) (by decide)).2
    ⟨webStart, by decide, by decide⟩ ⟨apiStart, by decide, by decide⟩

/-- C6: when an action name is defined by exactly one module, the
unqualified invocation fails with `NotAGroup` and no process is spawned. -/
theorem resolve_single_module_name (config : BPMConfig) (n : String)
    (extraArgs : List String) (tok : String → List String)
    (spawnOk : Action → Bool) (interrupt : Bool) (beh : Action → ProcState)
    (so se : Action → List ReadEvent)
    (hnd : ∀ p ∈ config.modules, (p.2.actions.map Prod.fst).Nodup)
    (h1 : (config.modules.filter (fun p => (p.2.actions.lookup n).isSome)).length = 1) :
    resolve config none n extraArgs = .error .NotAGroup
    ∧ spawnedProcs (bpmRun tok spawnOk interrupt beh so se config none n extraArgs) = [] := by
  have hget : dictGet (all_actions config) n
      = config.modules.filterMap (fun p => p.2.actions.lookup n) := by
    rw [dictGet_all_actions]
    exact flatMap_filter_eq_filterMap_lookup _ n hnd
  have hlen : (dictGet (all_actions config) n).length = 1 := by
    rw [hget, length_filterMap_lookup, h1]
  have hlkp : ∃ v, (all_actions config).lookup n = some v ∧ v.length = 1 := by
    cases hc : (all_actions config).lookup n with
    | none =>
      rw [dictGet, hc] at hlen
      simp at hlen
    | some v =>
      refine ⟨v, rfl, ?_⟩
      rw [dictGet, hc] at hlen
      exact hlen
  rcases hlkp with ⟨v, hv, hv1⟩
  have hgl : (action_groups config).lookup n = none := by
    rw [action_groups, lookup_filter_of_nodupKeys _ n (nodupKeys_all_actions config), hv]
    simp [hv1]
  have hres : resolve config none n extraArgs = .error .NotAGroup := by
    simp [resolve, hgl]
  refine ⟨hres, ?_⟩
  unfold bpmRun
  rw [hres]
  rfl

/-- Witness for C6: a one-module configuration where `start` is defined
only by the `api` module. -/
theorem resolve_single_module_name_witness :
    resolve { modules := [("api", apiModule)] } none "start" [] = .error .NotAGroup
    ∧ spawnedProcs (bpmRun tok0 spawnOkAll false behCooperative noStream noStream
        { modules := [("api", apiModule)] } none "start" []) = [] :=
  resolve_single_module_name { modules := [("api", apiModule)] } "start" [] tok0
    spawnOkAll false behCooperative noStream noStream (by decide) (by decide)


/-- C1 (evaluation at the failing input): `run` builds
`shlex.split(cmd) + action_args` for every action in both branches, so a
group invocation with extra args hands the args to actions whose `args`
flag is false as well — in the §8 scenario the sequential run passes
`--verbose` to `api.start`, and a concurrent group passes it to `db.start`,
although both have `args = false`. -/
theorem run_appends_args_to_non_accepting :
    apiStart.args = false
    ∧ dbStart.args = false
    ∧ selectMode [apiStart, webStart] = .sequential
    ∧ (runActions tok0 spawnOkAll false behCooperative noStream noStream
        [apiStart, webStart] ["--verbose"]).spawned
      = [(apiStart, ["npm start", "--verbose"]),
         (webStart, ["npm run dev", "--verbose"])]
    ∧ selectMode [dbStart, webStart] = .concurrent
    ∧ (runActions tok0 spawnOkAll false behCooperative noStream noStream
        [dbStart, webStart] ["--verbose"]).spawned
      = [(dbStart, ["db run", "--verbose"]),
         (webStart, ["npm run dev", "--verbose"])] := by
  refine ⟨rfl, rfl, rfl, ?_, rfl, ?_⟩ <;> rfl

/-- The sequential branch never populates `self.processes`. -/
theorem runSeq_liveAtExit (tok : String → List String) (spawnOk : Action → Bool)
    (actionArgs : List String) :
    ∀ (actions : List Action) (acc : List (Action × List String)),
      (runSeq tok spawnOk actionArgs actions acc).liveAtExit = [] := by
  intro actions
  induction actions with
  | nil => intro acc; rfl
  | cons a rest ih =>
    intro acc
    rw [runSeq]
    by_cases h : spawnOk a
    · rw [if_pos h]
      exact ih _
    · rw [if_neg h]

/-- When every spawn succeeds, the spawn loop reports success. -/
theorem spawnAll_ok (tok : String → List String) (spawnOk : Action → Bool)
    (actionArgs : List String) :
    ∀ (actions : List Action) (acc : List (Action × List String)),
      (∀ a ∈ actions, spawnOk a = true) →
      (spawnAll tok spawnOk actionArgs actions acc).2 = true := by
  intro actions
  induction actions with
  | nil => intro acc _; rfl
  | cons a rest ih =>
    intro acc h
    rw [spawnAll, if_pos (h a (List.mem_cons_self a rest))]
    exact ih _ (fun b hb => h b (List.mem_cons_of_mem _ hb))

/-- C8 (counterexample): a concurrent group whose second spawn fails exits
on the spawn-failure path with the first process still in the live set —
the claim that every exit path releases all live handles is false. -/
theorem run_spawn_failure_leaves_live_process :
    (runActions tok0 spawnOkNotWeb false behCooperative noStream noStream
        [dbStart, webStart] []).exitKind = .spawnFailed
    ∧ (runActions tok0 spawnOkNotWeb false behCooperative noStream noStream
        [dbStart, webStart] []).liveAtExit = [dbStart]
    ∧ [dbStart] ≠ ([] : List Action) := by
  refine ⟨rfl, rfl, ?_⟩
  decide

/-- C8 (amended): on the normal-completion and interrupt exit paths of
`run` the live-process set is empty; only the spawn-failure exit can leave
processes live. -/
theorem run_releases_live_processes (tok : String → List String)
    (spawnOk : Action → Bool) (interrupt : Bool) (beh : Action → ProcState)
    (so se : Action → List ReadEvent) (actions : List Action)
    (actionArgs : List String) :
    ((runActions tok spawnOk interrupt beh so se actions actionArgs).exitKind = .completed
      ∨ (runActions tok spawnOk interrupt beh so se actions actionArgs).exitKind = .interrupted) →
    (runActions tok spawnOk interrupt beh so se actions actionArgs).liveAtExit = [] := by
  intro h
  cases hm : selectMode actions with
  | sequential =>
    simp only [runActions, hm]
    exact runSeq_liveAtExit tok spawnOk actionArgs actions []
  | concurrent =>
    simp only [runActions, hm] at h ⊢
    unfold runConcurrent at h ⊢
    by_cases hsp : (spawnAll tok spawnOk actionArgs actions []).2 = false
    · rw [if_pos hsp] at h
      rcases h with h | h <;> simp at h
    · rw [if_neg hsp]
      by_cases hi : interrupt
      · rw [if_pos hi]
        rfl
      · rw [if_neg hi]

/-- Witness for C8's amended claim: an all-successful concurrent run
completes with the live set empty. -/
theorem run_releases_live_processes_witness :
    (runActions tok0 spawnOkAll false behCooperative noStream noStream
        [dbStart, webStart] []).liveAtExit = [] :=
  run_releases_live_processes tok0 spawnOkAll false behCooperative noStream noStream
    [dbStart, webStart] [] (Or.inl rfl)

/-- C9: a stream read failure produces exactly one error line carrying the
action's output tag and ends only that reader; the run outcome (spawned
processes, live set, exit kind, exit code) is the same whatever the
streams yield, and an interrupt-free run with successful spawns still
completes whatever the stream readers encountered. -/
theorem stream_read_error_does_not_abort (tok : String → List String)
    (spawnOk : Action → Bool) (interrupt : Bool) (beh : Action → ProcState)
    (so se so' se' : Action → List ReadEvent) (actions : List Action)
    (actionArgs : List String) (tag msg : String) (rest : List ReadEvent) :
    streamOutput tag (ReadEvent.fail msg :: rest) = ([streamErrorLine tag msg], true)
    ∧ ((runConcurrent tok spawnOk interrupt beh so se actions actionArgs).spawned,
       (runConcurrent tok spawnOk interrupt beh so se actions actionArgs).liveAtExit,
       (runConcurrent tok spawnOk interrupt beh so se actions actionArgs).exitKind,
       (runConcurrent tok spawnOk interrupt beh so se actions actionArgs).exitCode)
      = ((runConcurrent tok spawnOk interrupt beh so' se' actions actionArgs).spawned,
         (runConcurrent tok spawnOk interrupt beh so' se' actions actionArgs).liveAtExit,
         (runConcurrent tok spawnOk interrupt beh so' se' actions actionArgs).exitKind,
         (runConcurrent tok spawnOk interrupt beh so' se' actions actionArgs).exitCode)
    ∧ (∀ a cmdd msg2 rest2,
        (a, cmdd) ∈ (spawnAll tok spawnOk actionArgs actions []).1 →
        so a = ReadEvent.fail msg2 :: rest2 →
        streamErrorLine (actionTag a) msg2
          ∈ (runConcurrent tok spawnOk interrupt beh so se actions actionArgs).logs)
    ∧ ((∀ a ∈ actions, spawnOk a = true) →
        (runConcurrent tok spawnOk false beh so se actions actionArgs).exitKind
          = .completed) := by
  refine ⟨rfl, ?_, ?_, ?_⟩
  · unfold runConcurrent
    by_cases hsp : (spawnAll tok spawnOk actionArgs actions []).2 = false
    · rw [if_pos hsp, if_pos hsp]
    · rw [if_neg hsp, if_neg hsp]
      by_cases hi : interrupt
      · rw [if_pos hi, if_pos hi]
      · rw [if_neg hi, if_neg hi]
  · intro a cmdd msg2 rest2 hmem hsoa
    have hlog : streamErrorLine (actionTag a) msg2
        ∈ streamLogs so se (spawnAll tok spawnOk actionArgs actions []).1 := by
      rw [streamLogs]
      apply List.mem_flatMap.mpr
      refine ⟨(a, cmdd), hmem, ?_⟩
      apply List.mem_append.mpr
      left
      dsimp only
      rw [hsoa]
      exact List.mem_singleton_self _
    unfold runConcurrent
    by_cases hsp : (spawnAll tok spawnOk actionArgs actions []).2 = false
    · rw [if_pos hsp]
      exact hlog
    · rw [if_neg hsp]
      by_cases hi : interrupt
      · rw [if_pos hi]
        exact hlog
      · rw [if_neg hi]
        exact hlog
  · intro h
    unfold runConcurrent
    rw [if_neg (by rw [spawnAll_ok tok spawnOk actionArgs actions [] h]; simp)]
    rw [if_neg (by simp)]

/-- Witness for C9: a run whose stdout reader fails still completes. -/
theorem stream_read_error_does_not_abort_witness :
    (runConcurrent tok0 spawnOkAll false behCooperative
        (fun _ => [ReadEvent.fail "boom"]) noStream [dbStart] []).exitKind
      = .completed :=
  (stream_read_error_does_not_abort tok0 spawnOkAll false behCooperative
      (fun _ => [ReadEvent.fail "boom"]) noStream noStream noStream [dbStart] []
      "db.start" "boom" []).2.2.2 (by decide)

/-- C10: teardown attempts every live process in declaration order whatever
happens to the others; a process whose teardown does not raise gets a
graceful terminate, a wait bounded by the 3-second grace period, and a
force-kill exactly when it does not exit within grace; a raising teardown
is reported (logged) without exiting and without stopping the loop; the
live set is cleared unconditionally afterwards; and an interrupt during
concurrent execution makes the run exit with code 1. -/
theorem teardown_spec (beh : Action → ProcState) (procs : List Action)
    (tok : String → List String) (spawnOk : Action → Bool)
    (so se : Action → List ReadEvent) (actions : List Action)
    (actionArgs : List String) :
    ((killAllProcesses beh procs).1.map TeardownStep.action = procs)
    ∧ ((killAllProcesses beh procs).2 = [])
    ∧ gracePeriod = 3
    ∧ (∀ s ∈ (killAllProcesses beh procs).1,
        ((beh s.action).raises = false →
          s.terminated = true
          ∧ s.waitTimeout = gracePeriod
          ∧ (s.forceKilled = true ↔ (beh s.action).exitsWithinGrace = false))
        ∧ ((beh s.action).raises = true →
          s.errorLogged = true ∧ s.terminated = false))
    ∧ (runConcurrent tok spawnOk true beh so se actions actionArgs).exitCode = some 1 := by
  have hact : ∀ a, (teardownOne beh a).action = a := by
    intro a
    rw [teardownOne]
    by_cases h : (beh a).raises <;> simp [h]
  refine ⟨?_, rfl, rfl, ?_, ?_⟩
  · rw [killAllProcesses]
    rw [List.map_map, show (TeardownStep.action ∘ teardownOne beh) = fun a => a from
      funext hact]
    exact List.map_id _
  · intro s hs
    rcases List.mem_map.mp hs with ⟨a, ha, rfl⟩
    rw [hact a]
    by_cases h : (beh a).raises
    · simp [teardownOne, h]
    · have h' : (beh a).raises = false := Bool.not_eq_true _ ▸ h
      simp [teardownOne, h', Bool.not_eq_true']
  · unfold runConcurrent
    by_cases hsp : (spawnAll tok spawnOk actionArgs actions []).2 = false
    · rw [if_pos hsp]
    · rw [if_neg hsp, if_pos rfl]

/-- Witness for C10 at a concrete teardown: one cooperative and one
stubborn process are both attempted, the stubborn one is force-killed, and
the live set ends empty. -/
theorem teardown_spec_witness :
    (killAllProcesses behCooperative [dbStart, webStart]).1.map TeardownStep.action
        = [dbStart, webStart]
    ∧ (killAllProcesses behCooperative [dbStart, webStart]).2 = []
    ∧ (runConcurrent tok0 spawnOkAll true behCooperative noStream noStream
        [dbStart] []).exitCode = some 1 :=
  ⟨(teardown_spec behCooperative [dbStart, webStart] tok0 spawnOkAll noStream noStream
      [dbStart] []).1,
   (teardown_spec behCooperative [dbStart, webStart] tok0 spawnOkAll noStream noStream
      [dbStart] []).2.1,
   (teardown_spec behCooperative [dbStart, webStart] tok0 spawnOkAll noStream noStream
      [dbStart] []).2.2.2.2⟩

/-! ### Working-directory validation (C7) -/

/-- Rebasing always yields a path extending the project root: same anchor,
root components leading. -/
theorem rebase_path_extends (root sub : BPath) :
    (rebase_path root sub).absolute = root.absolute
    ∧ root.comps <+: (rebase_path root sub).comps := by
  rw [rebase_path]
  by_cases h : sub.relativeTo root
  · rw [if_pos h]
    rw [BPath.relativeTo] at h
    simp only [Bool.and_eq_true, beq_iff_eq] at h
    exact ⟨h.1, List.isPrefixOf_iff_prefix.mp h.2⟩
  · rw [if_neg h]
    exact ⟨rfl, List.prefix_append _ _⟩


/-- C7 (counterexample): module validation succeeds although the `build`
action's explicitly-set working directory does not exist — only the
module's own working directory is existence-checked, so the claim that
construction fails whenever any action's directory is missing is false. -/
theorem validateModule_ignores_action_workdir :
    validateModule demoFs repoDir "api" { absolute := false, comps := ["api"] }
        [("build", rawBuild)]
      = .ok { name := "api",
              work_dir := { absolute := true, comps := ["repo", "api"] },
              actions := [("build",
                { name := "build", module_name := "api", cmd := "make",
                  args := false, watch_cmd := none,
                  work_dir := { absolute := true, comps := ["repo", "missing"] },
                  bg := false })] }
    ∧ demoFs { absolute := true, comps := ["repo", "missing"] } = false := by
  constructor
  · rfl
  · decide

/-- C7 (amended): every action's working directory is rebased onto the
project root before the Action value is constructed (so it extends the
root), and construction fails exactly as dictated by the module's own
working directory — an action's explicitly-set directory is not
existence-checked. -/
theorem validateModule_spec (fs : BPath → Bool) (root : BPath) (name : String)
    (wd : BPath) (acts : List (String × RawAction)) :
    (∀ m, validateModule fs root name wd acts = .ok m →
      fs m.work_dir = true
      ∧ m.work_dir = rebase_path root wd
      ∧ ∀ pr ∈ m.actions, pr.2.work_dir.absolute = root.absolute
          ∧ root.comps <+: pr.2.work_dir.comps)
    ∧ (fs (rebase_path root wd) = false →
        validateModule fs root name wd acts = .error "workdir does not exist") := by
  constructor
  · intro m hm
    unfold validateModule at hm
    by_cases hfs : fs (rebase_path root wd) = true
    · rw [if_pos hfs] at hm
      cases hm
      refine ⟨hfs, rfl, ?_⟩
      intro pr hpr
      rcases List.mem_map.mp hpr with ⟨q, _, rfl⟩
      cases hq : q.2.work_dir with
      | none => simpa [hq] using rebase_path_extends root wd
      | some w => simpa [hq] using rebase_path_extends root w
    · rw [if_neg hfs] at hm
      cases hm
  · intro hfs
    unfold validateModule
    rw [if_neg (by rw [hfs]; simp)]

/-- Witness for C7's amended claim: a filesystem without the module
directory makes validation fail, and in the counterexample configuration
the constructed action directories all extend the root. -/
theorem validateModule_spec_witness :
    validateModule (fun _ => false) repoDir "api"
        { absolute := false, comps := ["api"] } []
      = .error "workdir does not exist" :=
  (validateModule_spec (fun _ => false) repoDir "api"
      { absolute := false, comps := ["api"] } []).2 rfl

end BPM
